import Mathlib

/-!
Verification of the jackpot helper worker (jackpot_index.js).

The development shallowly embeds the parts of the program that the claims
concern: the rows of the de_jackpot_sessions table, the conditional claim
and finalize updates issued against the store, the in-memory table of
actively managed sessions, the dice-roll handler, the inactivity timers,
and the per-tick claim loop.  Store-level concurrency is modelled by
serialising the atomic conditional updates: each claim or finalize
transaction holds a row lock (BEGIN .. FOR UPDATE .. COMMIT), so any
interleaving of transactions acts on the row as some sequence of atomic
conditional updates.
-/

/-- Status column of a de_jackpot_sessions row. -/
inductive SessionStatus where
  | pending_pickup
  | active_by_helper
  | completed_bust
  | completed_target_reached
  | completed_timeout_forfeit
  | error_helper_init_prompt
  | error_sending_message
deriving DecidableEq, Repr

/-- Row of the de_jackpot_sessions table, with the columns the program
reads or writes.  Timestamps are not modelled (updated_at is only ever
set to NOW()). -/
structure DBRow where
  session_id : Nat
  status : SessionStatus
  helper_bot_id : Option String
  user_id : String
  chat_id : String
  initial_score : Int
  initial_rolls_json : List Int
  target_jackpot_score : Int
  bust_on_value : Int
  jackpot_pool_at_session_start : Int
  final_score : Option Int
  final_rolls_json : Option (List Int)
  outcome_notes : Option String
  created_at : Nat
deriving DecidableEq, Repr

/-- Predicate of the claim UPDATE: WHERE session_id = $3 AND status =
quote-pending_pickup-quote (jackpot_index.js line 115). -/
def claimMatch (sid : Nat) (r : DBRow) : Bool :=
  decide (r.session_id = sid ∧ r.status = SessionStatus.pending_pickup)

/-- Atomic conditional claim update of jackpot_index.js lines 114-117:
UPDATE de_jackpot_sessions SET status = active_by_helper, helper_bot_id =
owner WHERE session_id = sid AND status = pending_pickup.  Returns the
updated table and the row count. -/
def claimUpdate (db : List DBRow) (sid : Nat) (owner : String) : List DBRow × Nat :=
  (db.map (fun r => if claimMatch sid r then
      { r with status := SessionStatus.active_by_helper, helper_bot_id := some owner }
    else r),
   db.countP (claimMatch sid))

/-- Serialisation of any number of concurrent claim attempts on one
session: each attempt is the atomic conditional update of claimUpdate,
applied in the commit order of the competing transactions.  Returns the
final table and the row count each attempt observed. -/
def runClaimAttempts (db : List DBRow) (sid : Nat) : List String → List DBRow × List Nat
  | [] => (db, [])
  | o :: os =>
    let p := claimUpdate db sid o
    let q := runClaimAttempts p.1 sid os
    (q.1, p.2 :: q.2)

/-- Key predicate selecting the rows of one session. -/
def keyMatch (sid : Nat) (r : DBRow) : Bool :=
  decide (r.session_id = sid)

theorem claimMatch_eq_and (sid : Nat) (r : DBRow) :
    claimMatch sid r = (keyMatch sid r && decide (r.status = SessionStatus.pending_pickup)) := by
  simp [claimMatch, keyMatch, Bool.decide_and]

theorem claimUpdate_keeps_key (sid : Nat) (o : String) (r : DBRow) :
    keyMatch sid ((fun r => if claimMatch sid r then
      { r with status := SessionStatus.active_by_helper, helper_bot_id := some o }
    else r) r) = keyMatch sid r := by
  by_cases h : claimMatch sid r = true <;> simp [h, keyMatch]

theorem claimUpdate_count_pending (db : List DBRow) (sid : Nat) (o : String) (r : DBRow)
    (hf : db.filter (keyMatch sid) = [r])
    (hp : r.status = SessionStatus.pending_pickup) :
    (claimUpdate db sid o).2 = 1 := by
  have hcount : db.countP (claimMatch sid) =
      (db.filter (keyMatch sid)).countP (fun x => decide (x.status = SessionStatus.pending_pickup)) := by
    rw [List.countP_filter]
    apply List.countP_congr
    intro r _
    rw [claimMatch_eq_and]
    exact ⟨fun h => by simpa [Bool.and_comm] using h, fun h => by simpa [Bool.and_comm] using h⟩
  simp [claimUpdate, hcount, hf, List.countP_cons, hp]

theorem claimUpdate_filter_pending (db : List DBRow) (sid : Nat) (o : String) (r : DBRow)
    (hf : db.filter (keyMatch sid) = [r])
    (hp : r.status = SessionStatus.pending_pickup) :
    (claimUpdate db sid o).1.filter (keyMatch sid) =
      [{ r with status := SessionStatus.active_by_helper, helper_bot_id := some o }] := by
  have hmap : (claimUpdate db sid o).1.filter (keyMatch sid) =
      (db.filter (keyMatch sid)).map (fun r => if claimMatch sid r then
        { r with status := SessionStatus.active_by_helper, helper_bot_id := some o }
      else r) := by
    simp only [claimUpdate]
    rw [List.filter_map]
    congr 1
    apply List.filter_congr
    intro x _
    exact claimUpdate_keeps_key sid o x
  rw [hmap, hf]
  have hm : claimMatch sid r = true := by
    have hk : keyMatch sid r = true := by
      have : r ∈ db.filter (keyMatch sid) := by rw [hf]; exact List.mem_singleton.mpr rfl
      exact (List.mem_filter.mp this).2
    rw [claimMatch_eq_and, hk, hp]
    simp
  simp [hm]

theorem claimUpdate_count_taken (db : List DBRow) (sid : Nat) (o : String) (r : DBRow)
    (hf : db.filter (keyMatch sid) = [r])
    (hp : r.status ≠ SessionStatus.pending_pickup) :
    (claimUpdate db sid o).2 = 0 := by
  have hcount : db.countP (claimMatch sid) =
      (db.filter (keyMatch sid)).countP (fun x => decide (x.status = SessionStatus.pending_pickup)) := by
    rw [List.countP_filter]
    apply List.countP_congr
    intro r _
    rw [claimMatch_eq_and]
    exact ⟨fun h => by simpa [Bool.and_comm] using h, fun h => by simpa [Bool.and_comm] using h⟩
  simp [claimUpdate, hcount, hf, List.countP_cons, hp]

theorem claimUpdate_id_taken (db : List DBRow) (sid : Nat) (o : String) (r : DBRow)
    (hf : db.filter (keyMatch sid) = [r])
    (hp : r.status ≠ SessionStatus.pending_pickup) :
    (claimUpdate db sid o).1 = db := by
  simp only [claimUpdate]
  have : ∀ x ∈ db, (if claimMatch sid x then
      { x with status := SessionStatus.active_by_helper, helper_bot_id := some o }
    else x) = x := by
    intro x hx
    have hnm : claimMatch sid x = false := by
      by_cases hk : keyMatch sid x = true
      · have hmem : x ∈ db.filter (keyMatch sid) := List.mem_filter.mpr ⟨hx, hk⟩
        rw [hf] at hmem
        have hx_eq : x = r := List.mem_singleton.mp hmem
        rw [claimMatch_eq_and, hk]
        subst hx_eq
        simp [hp]
      · rw [claimMatch_eq_and]
        simp [Bool.eq_false_iff.mpr hk]
    simp [hnm]
  calc db.map _ = db.map id := List.map_congr_left this
    _ = db := List.map_id db

theorem runClaimAttempts_taken (db : List DBRow) (sid : Nat) (os : List String) (r : DBRow)
    (hf : db.filter (keyMatch sid) = [r])
    (hp : r.status ≠ SessionStatus.pending_pickup) :
    (runClaimAttempts db sid os).1 = db ∧
    (runClaimAttempts db sid os).2 = List.replicate os.length 0 := by
  induction os generalizing db with
  | nil => simp [runClaimAttempts]
  | cons o os ih =>
    have h1 := claimUpdate_id_taken db sid o r hf hp
    have h2 := claimUpdate_count_taken db sid o r hf hp
    have ih2 := ih db hf
    simp only [runClaimAttempts, h1, h2]
    exact ⟨ih2.1, by simp [List.replicate_succ, ih2.2]⟩

/-- C1: for every session row, across any number of concurrently running
claim attempts (serialised as the sequence of their atomic conditional
updates), exactly one attempt transitions the row from pending_pickup to
active_by_helper and observes a row count of one; every other attempt
observes zero rows affected, so no two callers receive the same session. -/
theorem claim_exclusive (db : List DBRow) (sid : Nat) (r : DBRow) (o : String) (os : List String)
    (hf : db.filter (keyMatch sid) = [r])
    (hp : r.status = SessionStatus.pending_pickup) :
    (runClaimAttempts db sid (o :: os)).2 = 1 :: List.replicate os.length 0 ∧
    (runClaimAttempts db sid (o :: os)).1.filter (keyMatch sid) =
      [{ r with status := SessionStatus.active_by_helper, helper_bot_id := some o }] := by
  have h1 := claimUpdate_count_pending db sid o r hf hp
  have h2 := claimUpdate_filter_pending db sid o r hf hp
  have h3 := runClaimAttempts_taken (claimUpdate db sid o).1 sid os
    { r with status := SessionStatus.active_by_helper, helper_bot_id := some o }
    h2 (by simp)
  simp only [runClaimAttempts]
  refine ⟨by simp [h1, h3.2], ?_⟩
  rw [h3.1, h2]

/-- Concrete row used by witnesses. -/
def rowW : DBRow :=
  { session_id := 1
    status := SessionStatus.pending_pickup
    helper_bot_id := none
    user_id := "u1"
    chat_id := "c1"
    initial_score := 7
    initial_rolls_json := [2, 5]
    target_jackpot_score := 20
    bust_on_value := 1
    jackpot_pool_at_session_start := 1000000000
    final_score := none
    final_rolls_json := none
    outcome_notes := none
    created_at := 0 }

theorem claim_exclusive_witness :
    [rowW].filter (keyMatch 1) = [rowW] ∧
    rowW.status = SessionStatus.pending_pickup ∧
    ((runClaimAttempts [rowW] 1 ["botA", "botB", "botC"]).2 =
        1 :: List.replicate 2 0 ∧
      (runClaimAttempts [rowW] 1 ["botA", "botB", "botC"]).1.filter (keyMatch 1) =
        [{ rowW with status := SessionStatus.active_by_helper, helper_bot_id := some "botA" }]) :=
  ⟨by decide, rfl, claim_exclusive [rowW] 1 rowW "botA" ["botB", "botC"] (by decide) rfl⟩

/-- In-memory record stored in the activeHelperSessions map
(jackpot_index.js lines 145-152): the claimed row fields plus the
run-scoped fields. -/
structure SessionData where
  session_id : Nat
  user_id : String
  chat_id : String
  status : SessionStatus
  initial_score : Int
  initial_rolls_json : List Int
  initial_rolls_parsed : List Int
  target_jackpot_score : Int
  bust_on_value : Int
  jackpot_run_rolls : List Int
  jackpot_run_score : Int
  current_total_score : Int
  turnTimeoutId : Option Nat
deriving DecidableEq, Repr

/-- State of one helper worker process: the activeHelperSessions map
(modelled as an association list in insertion order, matching the JS Map),
the shared table, the pending setTimeout timers as pairs of timer id and
session id, the counter producing fresh timer ids, the messages sent so
far as pairs of chat id and message kind, and the botUsername global. -/
structure HelperState where
  sessions : List (Nat × SessionData)
  db : List DBRow
  timers : List (Nat × Nat)
  nextTimerId : Nat
  messages : List (String × String)
  botUsername : String
deriving DecidableEq, Repr

/-- Lookup in the activeHelperSessions map (Map.get). -/
def lookupSession (l : List (Nat × SessionData)) (sid : Nat) : Option SessionData :=
  (l.find? (fun p => decide (p.1 = sid))).map (fun p => p.2)

/-- Write into the activeHelperSessions map (Map.set): replaces the entry
with the given key in place, or appends a new entry, as the JS Map does. -/
def setSession : List (Nat × SessionData) → Nat → SessionData → List (Nat × SessionData)
  | [], sid, sd => [(sid, sd)]
  | p :: rest, sid, sd =>
    if p.1 = sid then (sid, sd) :: rest else p :: setSession rest sid sd

/-- Removal from the activeHelperSessions map (Map.delete). -/
def deleteSession (l : List (Nat × SessionData)) (sid : Nat) : List (Nat × SessionData) :=
  l.filter (fun p => decide (p.1 ≠ sid))

/-- Cancellation of a pending timer: the clearTimeout pattern guarded by if
(x.turnTimeoutId), used at jackpot_index.js lines 178-181, 243-246 and 282. -/
def clearTimer (timers : List (Nat × Nat)) : Option Nat → List (Nat × Nat)
  | none => timers
  | some tid => timers.filter (fun t => decide (t.1 ≠ tid))

/-- Predicate of the finalize UPDATE: WHERE session_id = $5 AND (status =
active_by_helper OR helper_bot_id = $6), jackpot_index.js line 297. -/
def finalizeMatch (sid : Nat) (owner : String) (r : DBRow) : Bool :=
  decide (r.session_id = sid ∧
    (r.status = SessionStatus.active_by_helper ∨ r.helper_bot_id = some owner))

/-- Atomic conditional finalize update of jackpot_index.js lines 294-299:
sets status, final_score, final_rolls_json and outcome_notes on the rows
the ownership condition matches; returns the updated table and row count. -/
def finalizeUpdate (db : List DBRow) (sid : Nat) (finalStatus : SessionStatus)
    (finalScore : Int) (finalRolls : List Int) (notes : String) (owner : String) :
    List DBRow × Nat :=
  (db.map (fun r => if finalizeMatch sid owner r then
      { r with status := finalStatus, final_score := some finalScore,
               final_rolls_json := some finalRolls, outcome_notes := some notes }
    else r),
   db.countP (finalizeMatch sid owner))

/-- finalizeJackpotSession (jackpot_index.js lines 274-317): reads the
in-memory record, cancels its timer, removes it from the live table,
combines initial_rolls_json (empty when the record is missing) with the
run rolls passed by the caller, issues the conditional store write, and,
only when the write affected a row and the record was present, sends the
concluding chat message.  Returns the new state and whether the write
took effect (rowCount greater than zero). -/
def finalizeJackpotSession (s : HelperState) (sessionId : Nat) (finalStatus : SessionStatus)
    (finalOverallScore : Int) (jackpotRunRollsArray : List Int) (outcomeNotesStr : String) :
    HelperState × Bool :=
  let sessionData := lookupSession s.sessions sessionId
  let timers1 := match sessionData with
    | some sd => clearTimer s.timers sd.turnTimeoutId
    | none => s.timers
  let sessions1 := deleteSession s.sessions sessionId
  let initialRolls := match sessionData with
    | some sd => sd.initial_rolls_json
    | none => []
  let finalRollsCombined := initialRolls ++ jackpotRunRollsArray
  let upd := finalizeUpdate s.db sessionId finalStatus finalOverallScore
    finalRollsCombined outcomeNotesStr s.botUsername
  let messages1 :=
    if upd.2 > 0 then
      match sessionData with
      | some sd => s.messages ++ [(sd.chat_id, "final_outcome")]
      | none => s.messages
    else s.messages
  ({ s with sessions := sessions1, timers := timers1, db := upd.1, messages := messages1 },
   upd.2 > 0)

/-- sendJackpotRunUpdate (jackpot_index.js lines 173-217): cancels the
pending timer of the session, and when the session status is
active_by_helper arms one fresh timeout and sends the roll prompt,
otherwise sends the closing text.  The message content is abstracted to a
kind tag. -/
def sendJackpotRunUpdate (s : HelperState) (sessionId : Nat) (lastRollValue : Option Int) :
    HelperState :=
  match lookupSession s.sessions sessionId with
  | none => s
  | some sd0 =>
    let timers1 := clearTimer s.timers sd0.turnTimeoutId
    let sd1 := { sd0 with turnTimeoutId := none }
    if sd1.status = SessionStatus.active_by_helper then
      let tid := s.nextTimerId
      let sd2 := { sd1 with turnTimeoutId := some tid }
      { s with timers := timers1 ++ [(tid, sessionId)],
               nextTimerId := tid + 1,
               messages := s.messages ++ [(sd2.chat_id, "run_update")],
               sessions := setSession s.sessions sessionId sd2 }
    else
      { s with timers := timers1,
               messages := s.messages ++ [(sd1.chat_id, "run_ended")],
               sessions := setSession s.sessions sessionId sd1 }

/-- Mutation of the session record by an accepted roll, jackpot_index.js
lines 248-250: append the value to jackpot_run_rolls, add it to
jackpot_run_score, recompute current_total_score as initial_score plus
jackpot_run_score. -/
def applyRoll (sd : SessionData) (diceValue : Int) : SessionData :=
  let sd1 := { sd with
    jackpot_run_rolls := sd.jackpot_run_rolls ++ [diceValue],
    jackpot_run_score := sd.jackpot_run_score + diceValue }
  { sd1 with current_total_score := sd1.initial_score + sd1.jackpot_run_score }

/-- Scan of the dice handler, jackpot_index.js lines 229-235: the first
entry of the live table whose user id, chat id and active status match
the incoming event. -/
def findActiveSession (l : List (Nat × SessionData)) (userId chatId : String) :
    Option (Nat × SessionData) :=
  l.find? (fun p => decide (p.2.user_id = userId ∧ p.2.chat_id = chatId ∧
    p.2.status = SessionStatus.active_by_helper))

/-- Dice handler, jackpot_index.js lines 219-262: route the roll to the
first matching active session (no match leaves the state untouched),
cancel the pending timer, apply the roll to the record, then branch: the
bust comparison is evaluated first, the target comparison second, and
otherwise the session continues with a fresh prompt. -/
def processDiceRoll (s : HelperState) (userId chatId : String) (diceValue : Int) :
    HelperState :=
  match findActiveSession s.sessions userId chatId with
  | none => s
  | some (sid, sd0) =>
    let timers1 := clearTimer s.timers sd0.turnTimeoutId
    let sd1 := applyRoll { sd0 with turnTimeoutId := none } diceValue
    let s1 := { s with timers := timers1, sessions := setSession s.sessions sid sd1 }
    if diceValue = sd1.bust_on_value then
      (finalizeJackpotSession s1 sid SessionStatus.completed_bust sd1.current_total_score
        sd1.jackpot_run_rolls "Busted during jackpot run").1
    else if sd1.target_jackpot_score ≤ sd1.current_total_score then
      (finalizeJackpotSession s1 sid SessionStatus.completed_target_reached
        sd1.current_total_score sd1.jackpot_run_rolls "Target reached").1
    else
      sendJackpotRunUpdate s1 sid (some diceValue)

/-- handleJackpotRunTurnTimeout (jackpot_index.js lines 264-272):
finalizes the session as completed_timeout_forfeit when it is still in
the live table with active status. -/
def handleJackpotRunTurnTimeout (s : HelperState) (sessionId : Nat) : HelperState :=
  match lookupSession s.sessions sessionId with
  | none => s
  | some sd =>
    if sd.status = SessionStatus.active_by_helper then
      (finalizeJackpotSession s sessionId SessionStatus.completed_timeout_forfeit
        sd.current_total_score sd.jackpot_run_rolls "Turn timed out during jackpot run").1
    else s

/-- Delivery-failure path of sendJackpotRunUpdate, jackpot_index.js lines
210-215: the sendMessage rejection handler captures the session record and
finalizes the session as error_sending_message with its current score and
run rolls. -/
def handleSendMessageFailure (s : HelperState) (sd : SessionData) : HelperState :=
  (finalizeJackpotSession s sd.session_id SessionStatus.error_sending_message
    sd.current_total_score sd.jackpot_run_rolls "Helper failed to send message to chat").1

/-- Failed-opening-prompt path of the claim loop, jackpot_index.js lines
156-163: finalizes the just-claimed session as error_helper_init_prompt
with the initial score and an empty run roll list. -/
def handleInitPromptFailure (s : HelperState) (row : DBRow) : HelperState :=
  (finalizeJackpotSession s row.session_id SessionStatus.error_helper_init_prompt
    row.initial_score [] "Failed initial prompt").1

/-- Registration of a claimed session in the live table, jackpot_index.js
lines 145-152: all row fields are copied, the run fields start empty, the
combined total starts at the parsed initial score, and no timer is armed
yet. -/
def claimedSessionData (row : DBRow) : SessionData :=
  { session_id := row.session_id
    user_id := row.user_id
    chat_id := row.chat_id
    status := row.status
    initial_score := row.initial_score
    initial_rolls_json := row.initial_rolls_json
    initial_rolls_parsed := row.initial_rolls_json
    target_jackpot_score := row.target_jackpot_score
    bust_on_value := row.bust_on_value
    jackpot_run_rolls := []
    jackpot_run_score := 0
    current_total_score := row.initial_score
    turnTimeoutId := none }

def registerClaimedSession (s : HelperState) (row : DBRow) : HelperState :=
  { s with sessions := setSession s.sessions row.session_id (claimedSessionData row) }

/-- Status of the first stored row of a session. -/
def rowStatus (db : List DBRow) (sid : Nat) : Option SessionStatus :=
  (db.find? (keyMatch sid)).map (fun r => r.status)

/-- Persisted final roll sequence of the first stored row of a session. -/
def persistedRolls (db : List DBRow) (sid : Nat) : Option (List Int) :=
  (db.find? (keyMatch sid)).bind (fun r => r.final_rolls_json)

theorem lookupSession_cons (p : Nat × SessionData) (l : List (Nat × SessionData)) (k : Nat) :
    lookupSession (p :: l) k = if p.1 = k then some p.2 else lookupSession l k := by
  by_cases h : p.1 = k
  · rw [lookupSession, List.find?_cons_of_pos _ (by simpa using h)]
    simp [h]
  · rw [lookupSession, List.find?_cons_of_neg _ (by simpa using h)]
    simp [h, lookupSession]

theorem lookup_setSession_self (l : List (Nat × SessionData)) (sid : Nat) (sd : SessionData) :
    lookupSession (setSession l sid sd) sid = some sd := by
  induction l with
  | nil => simp [setSession, lookupSession]
  | cons p rest ih =>
    by_cases h : p.1 = sid
    · simp [setSession, h, lookupSession_cons]
    · simp [setSession, h, lookupSession_cons, ih]

theorem lookup_setSession_ne (l : List (Nat × SessionData)) (sid k : Nat) (sd : SessionData)
    (hk : k ≠ sid) : lookupSession (setSession l sid sd) k = lookupSession l k := by
  induction l with
  | nil => simp [setSession, lookupSession_cons, lookupSession, Ne.symm hk]
  | cons p rest ih =>
    by_cases h : p.1 = sid
    · rw [setSession, if_pos h, lookupSession_cons, lookupSession_cons]
      rw [if_neg (Ne.symm hk), if_neg (h ▸ Ne.symm hk)]
    · rw [setSession, if_neg h, lookupSession_cons, lookupSession_cons, ih]

theorem deleteSession_cons (p : Nat × SessionData) (l : List (Nat × SessionData)) (sid : Nat) :
    deleteSession (p :: l) sid =
      if p.1 = sid then deleteSession l sid else p :: deleteSession l sid := by
  by_cases h : p.1 = sid
  · simp [deleteSession, List.filter_cons, h]
  · simp [deleteSession, List.filter_cons, h]

theorem lookup_deleteSession_self (l : List (Nat × SessionData)) (sid : Nat) :
    lookupSession (deleteSession l sid) sid = none := by
  induction l with
  | nil => simp [deleteSession, lookupSession]
  | cons p rest ih =>
    by_cases h : p.1 = sid
    · simpa [deleteSession_cons, h] using ih
    · rw [deleteSession_cons, if_neg h, lookupSession_cons, if_neg h]
      exact ih

theorem lookup_deleteSession_ne (l : List (Nat × SessionData)) (sid k : Nat)
    (hk : k ≠ sid) : lookupSession (deleteSession l sid) k = lookupSession l k := by
  induction l with
  | nil => simp [deleteSession, lookupSession]
  | cons p rest ih =>
    by_cases h : p.1 = sid
    · rw [deleteSession_cons, if_pos h, lookupSession_cons, if_neg (h ▸ Ne.symm hk)]
      exact ih
    · rw [deleteSession_cons, if_neg h, lookupSession_cons, lookupSession_cons, ih]

theorem find?_keyMatch_map (db : List DBRow) (sid : Nat) (f : DBRow → DBRow)
    (hf : ∀ r, (f r).session_id = r.session_id) :
    (db.map f).find? (keyMatch sid) = (db.find? (keyMatch sid)).map f := by
  induction db with
  | nil => simp
  | cons r rest ih =>
    by_cases h : keyMatch sid r = true
    · have hfr : keyMatch sid (f r) = true := by
        simp only [keyMatch, decide_eq_true_eq, hf] at h ⊢
        exact h
      rw [List.map_cons, List.find?_cons_of_pos _ hfr, List.find?_cons_of_pos _ h]
      rfl
    · have hb : keyMatch sid r = false := Bool.eq_false_iff.mpr h
      have hfr : keyMatch sid (f r) = false := by
        simp only [keyMatch, decide_eq_true_eq, hf] at hb ⊢
        exact hb
      rw [List.map_cons, List.find?_cons_of_neg _ (Bool.eq_false_iff.mp hfr),
        List.find?_cons_of_neg _ h, ih]

theorem finalizeUpdate_row (db : List DBRow) (sid : Nat) (st : SessionStatus) (sc : Int)
    (rolls : List Int) (notes : String) (owner : String) (r : DBRow)
    (hfind : db.find? (keyMatch sid) = some r)
    (hmatch : r.status = SessionStatus.active_by_helper ∨ r.helper_bot_id = some owner) :
    (finalizeUpdate db sid st sc rolls notes owner).1.find? (keyMatch sid) =
      some { r with status := st, final_score := some sc,
                    final_rolls_json := some rolls, outcome_notes := some notes } := by
  have hkey : r.session_id = sid := by
    have := List.find?_some hfind
    simpa [keyMatch] using this
  have hfm : finalizeMatch sid owner r = true := by
    simp [finalizeMatch, hkey, hmatch]
  have hpres : ∀ x : DBRow, ((fun x => if finalizeMatch sid owner x then
      { x with status := st, final_score := some sc,
               final_rolls_json := some rolls, outcome_notes := some notes }
    else x) x).session_id = x.session_id := by
    intro x
    by_cases h : finalizeMatch sid owner x = true <;> simp [h]
  simp only [finalizeUpdate]
  rw [find?_keyMatch_map db sid _ hpres, hfind]
  simp [hfm]

theorem finalize_rowStatus (s : HelperState) (sid : Nat) (st : SessionStatus) (sc : Int)
    (rolls : List Int) (notes : String) (r : DBRow)
    (hfind : s.db.find? (keyMatch sid) = some r)
    (hactive : r.status = SessionStatus.active_by_helper) :
    rowStatus ((finalizeJackpotSession s sid st sc rolls notes).1).db sid = some st := by
  simp only [finalizeJackpotSession, rowStatus]
  rw [finalizeUpdate_row s.db sid st sc _ notes s.botUsername r hfind (Or.inl hactive)]
  rfl

theorem finalize_persistedRolls (s : HelperState) (sid : Nat) (st : SessionStatus) (sc : Int)
    (rolls : List Int) (notes : String) (r : DBRow) (sd : SessionData)
    (hlook : lookupSession s.sessions sid = some sd)
    (hfind : s.db.find? (keyMatch sid) = some r)
    (hactive : r.status = SessionStatus.active_by_helper) :
    persistedRolls ((finalizeJackpotSession s sid st sc rolls notes).1).db sid =
      some (sd.initial_rolls_json ++ rolls) := by
  simp only [finalizeJackpotSession, hlook, persistedRolls]
  rw [finalizeUpdate_row s.db sid st sc _ notes s.botUsername r hfind (Or.inl hactive)]
  rfl

/-- C2: for every active session matched by the dice handler, a roll equal
to bust_on_value terminates the session as completed_bust even when the
roll would also raise the combined total to at least the jackpot target,
because the handler evaluates the bust comparison before the target
comparison. -/
theorem bust_precedence (s : HelperState) (u c : String) (sid : Nat) (sd : SessionData)
    (r : DBRow) (v : Int)
    (hfind : findActiveSession s.sessions u c = some (sid, sd))
    (hbust : v = sd.bust_on_value)
    (htarget : sd.target_jackpot_score ≤ sd.initial_score + (sd.jackpot_run_score + v))
    (hrow : s.db.find? (keyMatch sid) = some r)
    (hactive : r.status = SessionStatus.active_by_helper) :
    rowStatus (processDiceRoll s u c v).db sid = some SessionStatus.completed_bust := by
  simp only [processDiceRoll, hfind]
  rw [if_pos (show v = (applyRoll { sd with turnTimeoutId := none } v).bust_on_value from hbust)]
  exact finalize_rowStatus _ sid _ _ _ _ r hrow hactive

/-- Active row used by witnesses: the stored row after a successful claim. -/
def rowWA : DBRow :=
  { rowW with status := SessionStatus.active_by_helper,
              helper_bot_id := some "HelperDEJackpotBot" }

/-- In-memory record used by witnesses: a freshly claimed session of rowWA
with a high jackpot target. -/
def sdW : SessionData :=
  { session_id := 1
    user_id := "u1"
    chat_id := "c1"
    status := SessionStatus.active_by_helper
    initial_score := 7
    initial_rolls_json := [2, 5]
    initial_rolls_parsed := [2, 5]
    target_jackpot_score := 100
    bust_on_value := 1
    jackpot_run_rolls := []
    jackpot_run_score := 0
    current_total_score := 7
    turnTimeoutId := none }

/-- Worker state used by witnesses: one managed session over one claimed
row. -/
def stateW : HelperState :=
  { sessions := [(1, sdW)]
    db := [{ rowWA with target_jackpot_score := 100 }]
    timers := []
    nextTimerId := 0
    messages := []
    botUsername := "HelperDEJackpotBot" }

/-- Witness state for the bust-precedence claim: target 8, bust value 1,
so the roll 1 reaches the target and busts at once. -/
def stateW2 : HelperState :=
  { stateW with
    sessions := [(1, { sdW with target_jackpot_score := 8 })]
    db := [{ rowWA with target_jackpot_score := 8 }] }

theorem bust_precedence_witness :
    findActiveSession stateW2.sessions "u1" "c1" =
        some (1, { sdW with target_jackpot_score := 8 }) ∧
    (1 : Int) = ({ sdW with target_jackpot_score := 8 } : SessionData).bust_on_value ∧
    ({ sdW with target_jackpot_score := 8 } : SessionData).target_jackpot_score ≤
      ({ sdW with target_jackpot_score := 8 } : SessionData).initial_score +
        (({ sdW with target_jackpot_score := 8 } : SessionData).jackpot_run_score + 1) ∧
    stateW2.db.find? (keyMatch 1) = some { rowWA with target_jackpot_score := 8 } ∧
    ({ rowWA with target_jackpot_score := 8 } : DBRow).status =
      SessionStatus.active_by_helper ∧
    rowStatus (processDiceRoll stateW2 "u1" "c1" 1).db 1 =
      some SessionStatus.completed_bust :=
  ⟨by decide, by decide, by decide, by decide, by decide,
   bust_precedence stateW2 "u1" "c1" 1 { sdW with target_jackpot_score := 8 }
     { rowWA with target_jackpot_score := 8 } 1
     (by decide) (by decide) (by decide) (by decide) (by decide)⟩

/-- Relation maintained by the run bookkeeping: the run score is the sum
of the run rolls and the combined total is the initial score plus the run
score. -/
def scoreInv (sd : SessionData) : Prop :=
  sd.jackpot_run_score = sd.jackpot_run_rolls.sum ∧
  sd.current_total_score = sd.initial_score + sd.jackpot_run_score

/-- C4: every accepted roll preserves the score bookkeeping relation (run
score is the integer sum of the run rolls, combined total is initial score
plus run score), and concretely the handler driven from initial score 7
with rolls 4 then 5 records run rolls [4, 5], run score 9 and combined
total 16. -/
theorem score_accumulation :
    (∀ (sd : SessionData) (v : Int), scoreInv sd → scoreInv (applyRoll sd v)) ∧
    (lookupSession (processDiceRoll (processDiceRoll stateW "u1" "c1" 4) "u1" "c1" 5).sessions
        1).map (fun sd => (sd.jackpot_run_rolls, sd.jackpot_run_score, sd.current_total_score)) =
      some ([4, 5], 9, 16) := by
  constructor
  · rintro sd v ⟨h1, _⟩
    exact ⟨by simp [applyRoll, h1], by simp [applyRoll]⟩
  · decide

theorem score_accumulation_witness :
    scoreInv sdW ∧ scoreInv (applyRoll sdW 4) :=
  ⟨⟨rfl, rfl⟩, score_accumulation.1 sdW 4 ⟨rfl, rfl⟩⟩

/-- C5: on every terminal path (bust, target reached, timeout, delivery
failure, failed opening prompt) the roll sequence persisted by the
finalize write equals the initial_rolls_json of the session concatenated
with the run rolls accumulated up to that point, in order. -/
theorem rolls_roundtrip (s : HelperState) (u c : String) (sid : Nat) (sd : SessionData)
    (r : DBRow) (v : Int)
    (hrow : s.db.find? (keyMatch sid) = some r)
    (hactive : r.status = SessionStatus.active_by_helper) :
    (findActiveSession s.sessions u c = some (sid, sd) → v = sd.bust_on_value →
      persistedRolls (processDiceRoll s u c v).db sid =
        some (sd.initial_rolls_json ++ (sd.jackpot_run_rolls ++ [v]))) ∧
    (findActiveSession s.sessions u c = some (sid, sd) → v ≠ sd.bust_on_value →
      sd.target_jackpot_score ≤ sd.initial_score + (sd.jackpot_run_score + v) →
      persistedRolls (processDiceRoll s u c v).db sid =
        some (sd.initial_rolls_json ++ (sd.jackpot_run_rolls ++ [v]))) ∧
    (lookupSession s.sessions sid = some sd → sd.status = SessionStatus.active_by_helper →
      persistedRolls (handleJackpotRunTurnTimeout s sid).db sid =
        some (sd.initial_rolls_json ++ sd.jackpot_run_rolls)) ∧
    (lookupSession s.sessions sid = some sd → sd.session_id = sid →
      persistedRolls (handleSendMessageFailure s sd).db sid =
        some (sd.initial_rolls_json ++ sd.jackpot_run_rolls)) ∧
    (∀ (s2 : HelperState) (row r2 : DBRow),
      s2.db.find? (keyMatch row.session_id) = some r2 →
      r2.status = SessionStatus.active_by_helper →
      persistedRolls (handleInitPromptFailure (registerClaimedSession s2 row) row).db
          row.session_id = some (row.initial_rolls_json ++ ([] : List Int))) := by
  refine ⟨?_, ?_, ?_, ?_, ?_⟩
  · intro hfind hbust
    simp only [processDiceRoll, hfind]
    rw [if_pos (show v = (applyRoll { sd with turnTimeoutId := none } v).bust_on_value from hbust)]
    exact finalize_persistedRolls _ sid _ _ _ _ r (applyRoll { sd with turnTimeoutId := none } v)
      (lookup_setSession_self _ _ _) hrow hactive
  · intro hfind hv ht
    simp only [processDiceRoll, hfind]
    rw [if_neg (show ¬(v = (applyRoll { sd with turnTimeoutId := none } v).bust_on_value) from hv),
      if_pos (show (applyRoll { sd with turnTimeoutId := none } v).target_jackpot_score ≤
        (applyRoll { sd with turnTimeoutId := none } v).current_total_score from ht)]
    exact finalize_persistedRolls _ sid _ _ _ _ r (applyRoll { sd with turnTimeoutId := none } v)
      (lookup_setSession_self _ _ _) hrow hactive
  · intro hlook hst
    simp only [handleJackpotRunTurnTimeout, hlook]
    rw [if_pos hst]
    exact finalize_persistedRolls s sid _ _ _ _ r sd hlook hrow hactive
  · intro hlook hsid
    simp only [handleSendMessageFailure]
    rw [hsid]
    exact finalize_persistedRolls s sid _ _ _ _ r sd hlook hrow hactive
  · intro s2 row r2 hrow2 hactive2
    simp only [handleInitPromptFailure, registerClaimedSession]
    exact finalize_persistedRolls _ row.session_id _ _ _ _ r2 (claimedSessionData row)
      (lookup_setSession_self _ _ _) hrow2 hactive2

theorem rolls_roundtrip_witness :
    stateW.db.find? (keyMatch 1) = some { rowWA with target_jackpot_score := 100 } ∧
    ({ rowWA with target_jackpot_score := 100 } : DBRow).status =
      SessionStatus.active_by_helper ∧
    persistedRolls (handleJackpotRunTurnTimeout stateW 1).db 1 =
      some (sdW.initial_rolls_json ++ sdW.jackpot_run_rolls) :=
  ⟨by decide, by decide,
   (rolls_roundtrip stateW "u1" "c1" 1 sdW { rowWA with target_jackpot_score := 100 } 3
     (by decide) (by decide)).2.2.1 (by decide) (by decide)⟩

/-- Worker state with no in-memory record for session 1 but a claimed row
in the store. -/
def stateW0 : HelperState := { stateW with sessions := [] }

/-- C10: finalizing a session absent from the in-memory live table still
issues the conditional store write, with a final roll sequence equal to
just the run rolls passed by the caller (empty initial rolls), leaves the
sent messages unchanged even when the write succeeds, and reports the
write outcome from the row count alone. -/
theorem finalize_unknown_session (s : HelperState) (sid : Nat) (st : SessionStatus)
    (sc : Int) (rolls : List Int) (notes : String)
    (hmem : lookupSession s.sessions sid = none) :
    (finalizeJackpotSession s sid st sc rolls notes).1.db =
      (finalizeUpdate s.db sid st sc (([] : List Int) ++ rolls) notes s.botUsername).1 ∧
    (finalizeJackpotSession s sid st sc rolls notes).1.messages = s.messages ∧
    ((finalizeJackpotSession s sid st sc rolls notes).2 = true ↔
      0 < s.db.countP (finalizeMatch sid s.botUsername)) := by
  refine ⟨?_, ?_, ?_⟩
  · simp [finalizeJackpotSession, hmem]
  · by_cases h : (finalizeUpdate s.db sid st sc ([] ++ rolls) notes s.botUsername).2 > 0 <;>
      simp [finalizeJackpotSession, hmem, h]
  · simp [finalizeJackpotSession, hmem, finalizeUpdate, decide_eq_true_eq]

theorem finalize_unknown_session_witness :
    lookupSession stateW0.sessions 1 = none ∧
    ((finalizeJackpotSession stateW0 1 SessionStatus.completed_bust 8 [1] "bust").1.db =
        (finalizeUpdate stateW0.db 1 SessionStatus.completed_bust 8
          (([] : List Int) ++ [1]) "bust" stateW0.botUsername).1 ∧
      (finalizeJackpotSession stateW0 1 SessionStatus.completed_bust 8 [1] "bust").1.messages =
        stateW0.messages ∧
      ((finalizeJackpotSession stateW0 1 SessionStatus.completed_bust 8 [1] "bust").2 = true ↔
        0 < stateW0.db.countP (finalizeMatch 1 stateW0.botUsername))) :=
  ⟨by decide, finalize_unknown_session stateW0 1 SessionStatus.completed_bust 8 [1] "bust"
    (by decide)⟩

/-- Counterexample to C3 as stated: after a first finalize writes the
terminal status completed_bust, a second finalize call by the same worker
still matches the ownership disjunct (helper_bot_id = botUsername), so it
reports committed again and overwrites the stored terminal row, rather
than being a no-op that reports not committed. -/
theorem finalize_twice_commits :
    (finalizeJackpotSession stateW 1 SessionStatus.completed_bust 8 [1] "bust").2 = true ∧
    (finalizeJackpotSession
        (finalizeJackpotSession stateW 1 SessionStatus.completed_bust 8 [1] "bust").1
        1 SessionStatus.completed_timeout_forfeit 8 [1] "late timeout").2 = true ∧
    rowStatus ((finalizeJackpotSession
        (finalizeJackpotSession stateW 1 SessionStatus.completed_bust 8 [1] "bust").1
        1 SessionStatus.completed_timeout_forfeit 8 [1] "late timeout").1).db 1 =
      some SessionStatus.completed_timeout_forfeit := by
  decide

/-- C3 (amended): once the stored row is terminal, a later finalize call
by a worker whose identifier differs from the recorded helper_bot_id of
every row of the session is a no-op on the stored rows and reports not
committed.  A second call by the recorded owner itself still commits, as
finalize_twice_commits shows. -/
theorem finalize_noop_when_superseded (s : HelperState) (sid : Nat) (st : SessionStatus)
    (sc : Int) (rolls : List Int) (notes : String)
    (h : ∀ r ∈ s.db, r.session_id = sid →
      r.status ≠ SessionStatus.active_by_helper ∧ r.helper_bot_id ≠ some s.botUsername) :
    (finalizeJackpotSession s sid st sc rolls notes).1.db = s.db ∧
    (finalizeJackpotSession s sid st sc rolls notes).1.messages = s.messages ∧
    (finalizeJackpotSession s sid st sc rolls notes).2 = false := by
  have hall : ∀ r ∈ s.db, ¬(finalizeMatch sid s.botUsername r = true) := by
    intro r hr
    simp only [finalizeMatch, decide_eq_true_eq, not_and, not_or]
    intro hkey
    exact ⟨(h r hr hkey).1, (h r hr hkey).2⟩
  have hcount : s.db.countP (finalizeMatch sid s.botUsername) = 0 :=
    List.countP_eq_zero.mpr hall
  have hmap : (finalizeUpdate s.db sid st sc
      ((match lookupSession s.sessions sid with
        | some sd => sd.initial_rolls_json
        | none => []) ++ rolls) notes s.botUsername).1 = s.db := by
    simp only [finalizeUpdate]
    have : ∀ x ∈ s.db, (if finalizeMatch sid s.botUsername x then
        { x with status := st, final_score := some sc,
                 final_rolls_json := some ((match lookupSession s.sessions sid with
                   | some sd => sd.initial_rolls_json
                   | none => []) ++ rolls), outcome_notes := some notes }
      else x) = x := by
      intro x hx
      rw [if_neg (by simpa using hall x hx)]
    calc s.db.map _ = s.db.map id := List.map_congr_left this
      _ = s.db := List.map_id s.db
  refine ⟨?_, ?_, ?_⟩
  · simp only [finalizeJackpotSession]
    exact hmap
  · simp only [finalizeJackpotSession, finalizeUpdate, hcount]
    simp
  · simp only [finalizeJackpotSession, finalizeUpdate, hcount]
    simp

/-- Stored row already terminal and owned by another helper instance. -/
def rowW3 : DBRow :=
  { rowWA with status := SessionStatus.completed_bust, helper_bot_id := some "OtherHelper" }

/-- Worker state whose stored row is terminal and owned by another helper
instance. -/
def stateW3 : HelperState :=
  { stateW with sessions := [], db := [rowW3] }

theorem finalize_noop_when_superseded_witness :
    (∀ r ∈ stateW3.db, r.session_id = 1 →
      r.status ≠ SessionStatus.active_by_helper ∧
        r.helper_bot_id ≠ some stateW3.botUsername) ∧
    ((finalizeJackpotSession stateW3 1 SessionStatus.completed_timeout_forfeit 8 [1] "n").1.db =
        stateW3.db ∧
      (finalizeJackpotSession stateW3 1 SessionStatus.completed_timeout_forfeit 8
          [1] "n").1.messages = stateW3.messages ∧
      (finalizeJackpotSession stateW3 1 SessionStatus.completed_timeout_forfeit 8
          [1] "n").2 = false) :=
  ⟨by decide, finalize_noop_when_superseded stateW3 1 SessionStatus.completed_timeout_forfeit
    8 [1] "n" (by decide)⟩

/-- Counterexample to C6 as stated: with no in-memory record for the
session, the conditional finalize write still succeeds (the stored row is
active_by_helper), yet no outcome notification is emitted, contradicting
the part of the claim that a successful write always emits the
notification exactly once. -/
theorem finalize_commit_without_notification :
    (finalizeJackpotSession stateW0 1 SessionStatus.completed_bust 8 [1] "bust").2 = true ∧
    (finalizeJackpotSession stateW0 1 SessionStatus.completed_bust 8 [1] "bust").1.messages =
      stateW0.messages := by
  decide

/-- C6 (amended): the finalize write succeeds if and only if some stored
row of the session is active_by_helper or records this worker as owner;
when it reports no rows affected the worker changes nothing locally (no
store retry, no notification); when it succeeds and the session is in the
in-memory table, exactly one outcome notification is appended; when it
succeeds but the in-memory record is gone, no notification is emitted. -/
theorem finalize_report_and_notification (s : HelperState) (sid : Nat) (st : SessionStatus)
    (sc : Int) (rolls : List Int) (notes : String) :
    ((finalizeJackpotSession s sid st sc rolls notes).2 = true ↔
      ∃ r ∈ s.db, r.session_id = sid ∧
        (r.status = SessionStatus.active_by_helper ∨ r.helper_bot_id = some s.botUsername)) ∧
    ((finalizeJackpotSession s sid st sc rolls notes).2 = false →
      (finalizeJackpotSession s sid st sc rolls notes).1.db = s.db ∧
      (finalizeJackpotSession s sid st sc rolls notes).1.messages = s.messages) ∧
    (∀ sd, lookupSession s.sessions sid = some sd →
      (finalizeJackpotSession s sid st sc rolls notes).2 = true →
      (finalizeJackpotSession s sid st sc rolls notes).1.messages =
        s.messages ++ [(sd.chat_id, "final_outcome")]) ∧
    (lookupSession s.sessions sid = none →
      (finalizeJackpotSession s sid st sc rolls notes).1.messages = s.messages) := by
  refine ⟨?_, ?_, ?_, ?_⟩
  · simp only [finalizeJackpotSession, finalizeUpdate, decide_eq_true_eq]
    rw [gt_iff_lt, List.countP_pos_iff]
    constructor
    · rintro ⟨r, hr, hm⟩
      exact ⟨r, hr, by simpa [finalizeMatch] using hm⟩
    · rintro ⟨r, hr, hm⟩
      exact ⟨r, hr, by simpa [finalizeMatch] using hm⟩
  · intro hfalse
    have hc : s.db.countP (finalizeMatch sid s.botUsername) = 0 := by
      by_contra hne
      have hpos : 0 < s.db.countP (finalizeMatch sid s.botUsername) := Nat.pos_of_ne_zero hne
      simp only [finalizeJackpotSession, finalizeUpdate] at hfalse
      simp [hpos] at hfalse
    have hall : ∀ r ∈ s.db, ¬(finalizeMatch sid s.botUsername r = true) :=
      List.countP_eq_zero.mp hc
    constructor
    · simp only [finalizeJackpotSession, finalizeUpdate]
      have : ∀ x ∈ s.db, (if finalizeMatch sid s.botUsername x then
          { x with status := st, final_score := some sc,
                   final_rolls_json := some ((match lookupSession s.sessions sid with
                     | some sd => sd.initial_rolls_json
                     | none => []) ++ rolls), outcome_notes := some notes }
        else x) = x := by
        intro x hx
        rw [if_neg (by simpa using hall x hx)]
      calc s.db.map _ = s.db.map id := List.map_congr_left this
        _ = s.db := List.map_id s.db
    · simp only [finalizeJackpotSession, finalizeUpdate, hc]
      simp
  · intro sd hlook htrue
    have hpos : 0 < s.db.countP (finalizeMatch sid s.botUsername) := by
      simp only [finalizeJackpotSession, finalizeUpdate, decide_eq_true_eq] at htrue
      exact htrue
    simp only [finalizeJackpotSession, finalizeUpdate, hlook]
    simp [hpos]
  · intro hnone
    by_cases h : 0 < s.db.countP (finalizeMatch sid s.botUsername) <;>
      simp [finalizeJackpotSession, finalizeUpdate, hnone, h]

theorem finalize_report_witness :
    lookupSession stateW.sessions 1 = some sdW ∧
    (finalizeJackpotSession stateW 1 SessionStatus.completed_bust 8 [1] "n").2 = true ∧
    (finalizeJackpotSession stateW 1 SessionStatus.completed_bust 8 [1] "n").1.messages =
      stateW.messages ++ [(sdW.chat_id, "final_outcome")] :=
  ⟨by decide, by decide,
   (finalize_report_and_notification stateW 1 SessionStatus.completed_bust 8 [1] "n").2.2.1
     sdW (by decide) (by decide)⟩

/-- C7: finalizing a session removes it from the in-memory live table
unconditionally (whatever the stored rows contain, so independently of
whether the durable write succeeds), and a later roll event for the same
player and chat finds no matching active session and leaves the whole
state untouched, provided that session was the only live entry for that
player and chat. -/
theorem terminal_removes_live_session (s : HelperState) (sid : Nat) (sd : SessionData)
    (st : SessionStatus) (sc : Int) (rolls : List Int) (notes : String) (v : Int)
    (hlook : lookupSession s.sessions sid = some sd)
    (huniq : ∀ p ∈ s.sessions, p.2.user_id = sd.user_id → p.2.chat_id = sd.chat_id →
      p.2.status = SessionStatus.active_by_helper → p.1 = sid) :
    lookupSession ((finalizeJackpotSession s sid st sc rolls notes).1).sessions sid = none ∧
    processDiceRoll ((finalizeJackpotSession s sid st sc rolls notes).1) sd.user_id
      sd.chat_id v = (finalizeJackpotSession s sid st sc rolls notes).1 := by
  have hsess : ((finalizeJackpotSession s sid st sc rolls notes).1).sessions =
      deleteSession s.sessions sid := by
    simp only [finalizeJackpotSession]
  refine ⟨by rw [hsess]; exact lookup_deleteSession_self s.sessions sid, ?_⟩
  have hnone : findActiveSession ((finalizeJackpotSession s sid st sc rolls
      notes).1).sessions sd.user_id sd.chat_id = none := by
    rw [hsess]
    apply List.find?_eq_none.mpr
    intro p hp
    have hmem : p ∈ s.sessions ∧ p.1 ≠ sid := by
      have := List.mem_filter.mp hp
      exact ⟨this.1, by simpa using this.2⟩
    simp only [decide_eq_true_eq, not_and]
    intro hu hc2 hst
    exact absurd (huniq p hmem.1 hu hc2 hst) hmem.2
  simp [processDiceRoll, hnone]

theorem terminal_removes_live_session_witness :
    lookupSession stateW.sessions 1 = some sdW ∧
    (∀ p ∈ stateW.sessions, p.2.user_id = sdW.user_id → p.2.chat_id = sdW.chat_id →
      p.2.status = SessionStatus.active_by_helper → p.1 = 1) ∧
    (lookupSession ((finalizeJackpotSession stateW 1 SessionStatus.completed_bust
        8 [1] "n").1).sessions 1 = none ∧
      processDiceRoll ((finalizeJackpotSession stateW 1 SessionStatus.completed_bust
        8 [1] "n").1) sdW.user_id sdW.chat_id 4 =
        (finalizeJackpotSession stateW 1 SessionStatus.completed_bust 8 [1] "n").1) :=
  ⟨by decide, by decide,
   terminal_removes_live_session stateW 1 sdW SessionStatus.completed_bust 8 [1] "n" 4
     (by decide) (by decide)⟩

/-- Timer ids currently pending for one session. -/
def timersFor (s : HelperState) (sid : Nat) : List Nat :=
  (s.timers.filter (fun t => decide (t.2 = sid))).map (fun t => t.1)

/-- Well-formedness of the timer bookkeeping: every pending timer is the
registered timer of its session, every registered timer is pending, timer
ids are distinct and below the fresh-id counter, and the live table has
distinct keys (as a JS Map does). -/
def timersWF (s : HelperState) : Prop :=
  (∀ t ∈ s.timers,
    (lookupSession s.sessions t.2).bind (fun sd => sd.turnTimeoutId) = some t.1) ∧
  (∀ p ∈ s.sessions, ∀ tid ∈ p.2.turnTimeoutId.toList, (tid, p.1) ∈ s.timers) ∧
  (s.timers.map (fun t => t.1)).Nodup ∧
  (∀ t ∈ s.timers, t.1 < s.nextTimerId) ∧
  (s.sessions.map (fun p => p.1)).Nodup

/-- Every session at rest in the live table with active status has an
armed timer (true from the moment the opening prompt has been sent). -/
def ArmedInv (s : HelperState) : Prop :=
  ∀ p ∈ s.sessions, p.2.status = SessionStatus.active_by_helper → p.2.turnTimeoutId.isSome

theorem lookup_mem (l : List (Nat × SessionData)) (k : Nat) (sd : SessionData)
    (h : lookupSession l k = some sd) : (k, sd) ∈ l := by
  simp only [lookupSession, Option.map_eq_some'] at h
  obtain ⟨p, hp, hsd⟩ := h
  have hk : p.1 = k := by simpa using List.find?_some hp
  have hm : p ∈ l := List.mem_of_find?_eq_some hp
  have : p = (k, sd) := by
    cases p
    simp_all
  rwa [this] at hm

theorem mem_lookup_of_nodup (l : List (Nat × SessionData)) (k : Nat) (sd : SessionData)
    (hnd : (l.map (fun p => p.1)).Nodup) (h : (k, sd) ∈ l) :
    lookupSession l k = some sd := by
  induction l with
  | nil => cases h
  | cons p rest ih =>
    rcases List.mem_cons.mp h with heq | hmem
    · rw [← heq, lookupSession_cons, if_pos rfl]
    · have hk : p.1 ≠ k := by
        intro hpk
        have : k ∈ rest.map (fun p => p.1) := by
          exact List.mem_map.mpr ⟨(k, sd), hmem, rfl⟩
        rw [List.map_cons, List.nodup_cons] at hnd
        exact hnd.1 (hpk ▸ this)
      rw [lookupSession_cons, if_neg hk]
      exact ih (by rw [List.map_cons, List.nodup_cons] at hnd; exact hnd.2) hmem

theorem mem_setSession_of_nodup (l : List (Nat × SessionData)) (k : Nat) (v : SessionData)
    (p : Nat × SessionData) (hnd : (l.map (fun p => p.1)).Nodup)
    (h : p ∈ setSession l k v) : p = (k, v) ∨ (p ∈ l ∧ p.1 ≠ k) := by
  induction l with
  | nil =>
    left
    simpa [setSession] using h
  | cons q rest ih =>
    rw [List.map_cons, List.nodup_cons] at hnd
    by_cases hq : q.1 = k
    · rw [setSession, if_pos hq] at h
      rcases List.mem_cons.mp h with heq | hmem
      · exact Or.inl heq
      · refine Or.inr ⟨List.mem_cons_of_mem q hmem, ?_⟩
        intro hpk
        exact hnd.1 (hq ▸ hpk ▸ List.mem_map.mpr ⟨p, hmem, rfl⟩)
    · rw [setSession, if_neg hq] at h
      rcases List.mem_cons.mp h with heq | hmem
      · exact Or.inr ⟨heq ▸ List.mem_cons_self q rest, heq ▸ hq⟩
      · rcases ih hnd.2 hmem with h1 | h2
        · exact Or.inl h1
        · exact Or.inr ⟨List.mem_cons_of_mem q h2.1, h2.2⟩

theorem keys_setSession_mem (l : List (Nat × SessionData)) (k : Nat) (v : SessionData)
    (x : Nat) (h : x ∈ (setSession l k v).map (fun p => p.1)) :
    x ∈ l.map (fun p => p.1) ∨ x = k := by
  induction l with
  | nil =>
    right
    simpa [setSession] using h
  | cons q rest ih =>
    by_cases hq : q.1 = k
    · rw [setSession, if_pos hq] at h
      rcases List.mem_map.mp h with ⟨p, hp, hx⟩
      rcases List.mem_cons.mp hp with heq | hmem
      · right; rw [← hx, heq]
      · left
        exact List.mem_map.mpr ⟨p, List.mem_cons_of_mem q hmem, hx⟩
    · rw [setSession, if_neg hq] at h
      rcases List.mem_map.mp h with ⟨p, hp, hx⟩
      rcases List.mem_cons.mp hp with heq | hmem
      · left; rw [← hx, heq]; exact List.mem_map.mpr ⟨q, List.mem_cons_self q rest, rfl⟩
      · rcases ih (List.mem_map.mpr ⟨p, hmem, hx⟩) with h1 | h2
        · left
          rcases List.mem_map.mp h1 with ⟨p2, hp2, hx2⟩
          exact List.mem_map.mpr ⟨p2, List.mem_cons_of_mem q hp2, hx2⟩
        · right; exact h2

theorem nodup_keys_setSession (l : List (Nat × SessionData)) (k : Nat) (v : SessionData)
    (hnd : (l.map (fun p => p.1)).Nodup) :
    ((setSession l k v).map (fun p => p.1)).Nodup := by
  induction l with
  | nil => simp [setSession]
  | cons q rest ih =>
    rw [List.map_cons, List.nodup_cons] at hnd
    by_cases hq : q.1 = k
    · rw [setSession, if_pos hq]
      rw [List.map_cons, List.nodup_cons]
      exact ⟨hq ▸ hnd.1, hnd.2⟩
    · rw [setSession, if_neg hq]
      rw [List.map_cons, List.nodup_cons]
      refine ⟨?_, ih hnd.2⟩
      intro hmem
      rcases keys_setSession_mem rest k v q.1 hmem with h1 | h2
      · exact hnd.1 h1
      · exact hq h2

theorem mem_deleteSession (l : List (Nat × SessionData)) (k : Nat) (p : Nat × SessionData) :
    p ∈ deleteSession l k ↔ p ∈ l ∧ p.1 ≠ k := by
  simp [deleteSession, List.mem_filter]

theorem nodup_keys_deleteSession (l : List (Nat × SessionData)) (k : Nat)
    (hnd : (l.map (fun p => p.1)).Nodup) :
    ((deleteSession l k).map (fun p => p.1)).Nodup :=
  ((List.filter_sublist l).map (fun p => p.1)).nodup hnd

theorem mem_clearTimer (timers : List (Nat × Nat)) (o : Option Nat) (t : Nat × Nat)
    (h : t ∈ clearTimer timers o) : t ∈ timers := by
  cases o with
  | none => exact h
  | some tid => exact (List.mem_filter.mp h).1

theorem mem_clearTimer_of (timers : List (Nat × Nat)) (tid : Nat) (t : Nat × Nat)
    (hmem : t ∈ timers) (hne : t.1 ≠ tid) : t ∈ clearTimer timers (some tid) :=
  List.mem_filter.mpr ⟨hmem, by simpa using hne⟩

theorem nodup_ids_clearTimer (timers : List (Nat × Nat)) (o : Option Nat)
    (hnd : (timers.map (fun t => t.1)).Nodup) :
    ((clearTimer timers o).map (fun t => t.1)).Nodup := by
  cases o with
  | none => exact hnd
  | some tid => exact ((List.filter_sublist timers).map (fun t => t.1)).nodup hnd

theorem timers_no_unknown (s : HelperState) (hwf : timersWF s) (sid : Nat)
    (hl : lookupSession s.sessions sid = none) : ∀ t ∈ s.timers, t.2 ≠ sid := by
  intro t ht h2sid
  have h := hwf.1 t ht
  rw [h2sid, hl] at h
  simp at h

theorem clearTimer_no_own (s : HelperState) (hwf : timersWF s) (sid : Nat) (sd0 : SessionData)
    (hl : lookupSession s.sessions sid = some sd0) :
    ∀ t ∈ clearTimer s.timers sd0.turnTimeoutId, t.2 ≠ sid := by
  intro t ht h2sid
  have hmem := mem_clearTimer _ _ _ ht
  have h := hwf.1 t hmem
  rw [h2sid, hl] at h
  simp only [Option.bind_eq_bind, Option.some_bind] at h
  rw [h] at ht
  simp [clearTimer, List.mem_filter] at ht

theorem clearTimer_keeps_other (s : HelperState) (hwf : timersWF s) (sid : Nat)
    (sd0 : SessionData) (hl : lookupSession s.sessions sid = some sd0)
    (t : Nat × Nat) (hmem : t ∈ s.timers) (hne : t.2 ≠ sid) :
    t ∈ clearTimer s.timers sd0.turnTimeoutId := by
  cases ho : sd0.turnTimeoutId with
  | none => exact hmem
  | some tid0 =>
    apply mem_clearTimer_of _ _ _ hmem
    intro heq
    have hsidmem : (tid0, sid) ∈ s.timers :=
      hwf.2.1 (sid, sd0) (lookup_mem _ _ _ hl) tid0 (by simp [ho])
    have heq2 : t = (tid0, sid) :=
      List.inj_on_of_nodup_map hwf.2.2.1 hmem hsidmem (by simpa using heq)
    exact hne (by rw [heq2])

theorem timersWF_send (s : HelperState) (sid : Nat) (lr : Option Int)
    (hwf : timersWF s) : timersWF (sendJackpotRunUpdate s sid lr) := by
  obtain ⟨h1, h2, h3, h4, h5⟩ := hwf
  have hwf' : timersWF s := ⟨h1, h2, h3, h4, h5⟩
  cases hl : lookupSession s.sessions sid with
  | none => simpa [sendJackpotRunUpdate, hl] using hwf'
  | some sd0 =>
    by_cases hst : sd0.status = SessionStatus.active_by_helper
    · simp only [sendJackpotRunUpdate, hl]
      rw [if_pos (show ({ sd0 with turnTimeoutId := none } : SessionData).status =
        SessionStatus.active_by_helper from hst)]
      refine ⟨?_, ?_, ?_, ?_, ?_⟩
      · intro t ht
        rcases List.mem_append.mp ht with ht1 | ht2
        · have hne : t.2 ≠ sid := clearTimer_no_own s hwf' sid sd0 hl t ht1
          rw [lookup_setSession_ne _ _ _ _ hne]
          exact h1 t (mem_clearTimer _ _ _ ht1)
        · have : t = (s.nextTimerId, sid) := List.mem_singleton.mp ht2
          rw [this, lookup_setSession_self]
          rfl
      · intro p hp tid htid
        rcases mem_setSession_of_nodup _ _ _ _ h5 hp with heq | ⟨hmem, hne⟩
        · rw [heq] at htid ⊢
          have : tid = s.nextTimerId := by simpa using htid
          rw [this]
          exact List.mem_append_right _ (List.mem_singleton.mpr rfl)
        · exact List.mem_append_left _
            (clearTimer_keeps_other s hwf' sid sd0 hl (tid, p.1) (h2 p hmem tid htid) hne)
      · rw [List.map_append]
        rw [List.nodup_append]
        refine ⟨nodup_ids_clearTimer _ _ h3, List.nodup_singleton _, ?_⟩
        intro a ha hb
        rcases List.mem_map.mp ha with ⟨t, htm, hta⟩
        have := h4 t (mem_clearTimer _ _ _ htm)
        have haid : a = s.nextTimerId := by simpa using hb
        rw [← hta] at haid
        exact absurd haid (Nat.ne_of_lt this)
      · intro t ht
        rcases List.mem_append.mp ht with ht1 | ht2
        · exact Nat.lt_succ_of_lt (h4 t (mem_clearTimer _ _ _ ht1))
        · rw [List.mem_singleton.mp ht2]
          exact Nat.lt_succ_self _
      · exact nodup_keys_setSession _ _ _ h5
    · simp only [sendJackpotRunUpdate, hl]
      rw [if_neg (show ¬(({ sd0 with turnTimeoutId := none } : SessionData).status =
        SessionStatus.active_by_helper) from hst)]
      refine ⟨?_, ?_, ?_, ?_, ?_⟩
      · intro t ht
        have hne : t.2 ≠ sid := clearTimer_no_own s hwf' sid sd0 hl t ht
        rw [lookup_setSession_ne _ _ _ _ hne]
        exact h1 t (mem_clearTimer _ _ _ ht)
      · intro p hp tid htid
        rcases mem_setSession_of_nodup _ _ _ _ h5 hp with heq | ⟨hmem, hne⟩
        · rw [heq] at htid
          simp at htid
        · exact clearTimer_keeps_other s hwf' sid sd0 hl (tid, p.1) (h2 p hmem tid htid) hne
      · exact nodup_ids_clearTimer _ _ h3
      · intro t ht
        exact h4 t (mem_clearTimer _ _ _ ht)
      · exact nodup_keys_setSession _ _ _ h5

theorem timersWF_finalize (s : HelperState) (sid : Nat) (st : SessionStatus) (sc : Int)
    (rolls : List Int) (notes : String) (hwf : timersWF s) :
    timersWF (finalizeJackpotSession s sid st sc rolls notes).1 := by
  obtain ⟨h1, h2, h3, h4, h5⟩ := hwf
  have hwf' : timersWF s := ⟨h1, h2, h3, h4, h5⟩
  cases hl : lookupSession s.sessions sid with
  | none =>
    simp only [finalizeJackpotSession, hl]
    refine ⟨?_, ?_, ?_, ?_, ?_⟩
    · intro t ht
      have hne : t.2 ≠ sid := timers_no_unknown s hwf' sid hl t ht
      rw [lookup_deleteSession_ne _ _ _ hne]
      exact h1 t ht
    · intro p hp tid htid
      have hmd := (mem_deleteSession _ _ _).mp hp
      exact h2 p hmd.1 tid htid
    · exact h3
    · exact h4
    · exact nodup_keys_deleteSession _ _ h5
  | some sd0 =>
    simp only [finalizeJackpotSession, hl]
    refine ⟨?_, ?_, ?_, ?_, ?_⟩
    · intro t ht
      have hne : t.2 ≠ sid := clearTimer_no_own s hwf' sid sd0 hl t ht
      rw [lookup_deleteSession_ne _ _ _ hne]
      exact h1 t (mem_clearTimer _ _ _ ht)
    · intro p hp tid htid
      have hmd := (mem_deleteSession _ _ _).mp hp
      exact clearTimer_keeps_other s hwf' sid sd0 hl (tid, p.1) (h2 p hmd.1 tid htid) hmd.2
    · exact nodup_ids_clearTimer _ _ h3
    · intro t ht
      exact h4 t (mem_clearTimer _ _ _ ht)
    · exact nodup_keys_deleteSession _ _ h5

theorem timersFor_finalize (s : HelperState) (sid : Nat) (st : SessionStatus) (sc : Int)
    (rolls : List Int) (notes : String) (hwf : timersWF s) :
    timersFor (finalizeJackpotSession s sid st sc rolls notes).1 sid = [] := by
  have hnone : ∀ t ∈ (finalizeJackpotSession s sid st sc rolls notes).1.timers, t.2 ≠ sid := by
    cases hl : lookupSession s.sessions sid with
    | none =>
      simp only [finalizeJackpotSession, hl]
      exact timers_no_unknown s hwf sid hl
    | some sd0 =>
      simp only [finalizeJackpotSession, hl]
      exact clearTimer_no_own s hwf sid sd0 hl
  have hfil : (finalizeJackpotSession s sid st sc rolls notes).1.timers.filter
      (fun t => decide (t.2 = sid)) = [] := by
    rw [List.filter_eq_nil_iff]
    intro t ht
    simpa using hnone t ht
  rw [timersFor, hfil]
  rfl

theorem timersWF_roll (s : HelperState) (u c : String) (v : Int) (hwf : timersWF s) :
    timersWF (processDiceRoll s u c v) := by
  obtain ⟨h1, h2, h3, h4, h5⟩ := hwf
  have hwf' : timersWF s := ⟨h1, h2, h3, h4, h5⟩
  cases hf : findActiveSession s.sessions u c with
  | none => simpa [processDiceRoll, hf] using hwf'
  | some p =>
    obtain ⟨sid, sd0⟩ := p
    have hmem : (sid, sd0) ∈ s.sessions := List.mem_of_find?_eq_some hf
    have hl : lookupSession s.sessions sid = some sd0 := mem_lookup_of_nodup _ _ _ h5 hmem
    have hwf1 : timersWF { s with
        timers := clearTimer s.timers sd0.turnTimeoutId,
        sessions := setSession s.sessions sid
          (applyRoll { sd0 with turnTimeoutId := none } v) } := by
      refine ⟨?_, ?_, ?_, ?_, ?_⟩
      · intro t ht
        have hne : t.2 ≠ sid := clearTimer_no_own s hwf' sid sd0 hl t ht
        rw [lookup_setSession_ne _ _ _ _ hne]
        exact h1 t (mem_clearTimer _ _ _ ht)
      · intro q hq tid htid
        rcases mem_setSession_of_nodup _ _ _ _ h5 hq with heq | ⟨hqmem, hqne⟩
        · rw [heq] at htid
          simp [applyRoll] at htid
        · exact clearTimer_keeps_other s hwf' sid sd0 hl (tid, q.1) (h2 q hqmem tid htid) hqne
      · exact nodup_ids_clearTimer _ _ h3
      · intro t ht
        exact h4 t (mem_clearTimer _ _ _ ht)
      · exact nodup_keys_setSession _ _ _ h5
    simp only [processDiceRoll, hf]
    by_cases hb : v = (applyRoll { sd0 with turnTimeoutId := none } v).bust_on_value
    · rw [if_pos hb]
      exact timersWF_finalize _ sid _ _ _ _ hwf1
    · rw [if_neg hb]
      by_cases ht : (applyRoll { sd0 with turnTimeoutId := none } v).target_jackpot_score ≤
          (applyRoll { sd0 with turnTimeoutId := none } v).current_total_score
      · rw [if_pos ht]
        exact timersWF_finalize _ sid _ _ _ _ hwf1
      · rw [if_neg ht]
        exact timersWF_send _ sid _ hwf1

theorem armed_send_except (s : HelperState) (sid : Nat) (lr : Option Int)
    (hnd : (s.sessions.map (fun p => p.1)).Nodup)
    (harm : ∀ p ∈ s.sessions, p.1 ≠ sid →
      p.2.status = SessionStatus.active_by_helper → p.2.turnTimeoutId.isSome) :
    ArmedInv (sendJackpotRunUpdate s sid lr) := by
  cases hl : lookupSession s.sessions sid with
  | none =>
    simp only [sendJackpotRunUpdate, hl]
    intro p hp hst
    by_cases hpk : p.1 = sid
    · exfalso
      have hfn : s.sessions.find? (fun q => decide (q.1 = sid)) = none := by
        simpa [lookupSession] using hl
      have := List.find?_eq_none.mp hfn p hp
      simp [hpk] at this
    · exact harm p hp hpk hst
  | some sd0 =>
    by_cases hst0 : sd0.status = SessionStatus.active_by_helper
    · simp only [sendJackpotRunUpdate, hl]
      rw [if_pos (show ({ sd0 with turnTimeoutId := none } : SessionData).status =
        SessionStatus.active_by_helper from hst0)]
      intro p hp hst
      rcases mem_setSession_of_nodup _ _ _ _ hnd hp with heq | ⟨hmem, hne⟩
      · rw [heq]
        rfl
      · exact harm p hmem hne hst
    · simp only [sendJackpotRunUpdate, hl]
      rw [if_neg (show ¬(({ sd0 with turnTimeoutId := none } : SessionData).status =
        SessionStatus.active_by_helper) from hst0)]
      intro p hp hst
      rcases mem_setSession_of_nodup _ _ _ _ hnd hp with heq | ⟨hmem, hne⟩
      · exfalso
        apply hst0
        rw [heq] at hst
        exact hst
      · exact harm p hmem hne hst

theorem armed_finalize_except (s : HelperState) (sid : Nat) (st : SessionStatus) (sc : Int)
    (rolls : List Int) (notes : String)
    (harm : ∀ p ∈ s.sessions, p.1 ≠ sid →
      p.2.status = SessionStatus.active_by_helper → p.2.turnTimeoutId.isSome) :
    ArmedInv (finalizeJackpotSession s sid st sc rolls notes).1 := by
  intro p hp hst
  have hsess : (finalizeJackpotSession s sid st sc rolls notes).1.sessions =
      deleteSession s.sessions sid := by
    simp only [finalizeJackpotSession]
  rw [hsess] at hp
  have hmd := (mem_deleteSession _ _ _).mp hp
  exact harm p hmd.1 hmd.2 hst

theorem armed_roll (s : HelperState) (u c : String) (v : Int) (hwf : timersWF s)
    (harm : ArmedInv s) : ArmedInv (processDiceRoll s u c v) := by
  have h5 := hwf.2.2.2.2
  cases hf : findActiveSession s.sessions u c with
  | none => simpa [processDiceRoll, hf] using harm
  | some p =>
    obtain ⟨sid, sd0⟩ := p
    have harm1 : ∀ q ∈ (setSession s.sessions sid
        (applyRoll { sd0 with turnTimeoutId := none } v)), q.1 ≠ sid →
        q.2.status = SessionStatus.active_by_helper → q.2.turnTimeoutId.isSome := by
      intro q hq hqk hqst
      rcases mem_setSession_of_nodup _ _ _ _ h5 hq with heq | ⟨hmem, _⟩
      · exact absurd (by rw [heq]) hqk
      · exact harm q hmem hqst
    simp only [processDiceRoll, hf]
    by_cases hb : v = (applyRoll { sd0 with turnTimeoutId := none } v).bust_on_value
    · rw [if_pos hb]
      exact armed_finalize_except _ sid _ _ _ _ harm1
    · rw [if_neg hb]
      by_cases ht : (applyRoll { sd0 with turnTimeoutId := none } v).target_jackpot_score ≤
          (applyRoll { sd0 with turnTimeoutId := none } v).current_total_score
      · rw [if_pos ht]
        exact armed_finalize_except _ sid _ _ _ _ harm1
      · rw [if_neg ht]
        exact armed_send_except _ sid _ (nodup_keys_setSession _ _ _ h5) harm1

theorem filter_pair_singleton (L : List (Nat × Nat)) (a : Nat × Nat) (hmem : a ∈ L)
    (hall : ∀ x ∈ L, x = a) (hnd : (L.map (fun t => t.1)).Nodup) : L = [a] := by
  cases L with
  | nil => cases hmem
  | cons b tail =>
    have hb : b = a := hall b (List.mem_cons_self b tail)
    have htail : tail = [] := by
      rw [List.eq_nil_iff_forall_not_mem]
      intro x hx
      have hxa : x = a := hall x (List.mem_cons_of_mem b hx)
      rw [List.map_cons, List.nodup_cons] at hnd
      exact hnd.1 (List.mem_map.mpr ⟨x, hx, by rw [hxa, hb]⟩)
    rw [hb, htail]

theorem timersFor_char (s : HelperState) (hwf : timersWF s) (sid : Nat) :
    timersFor s sid = ((lookupSession s.sessions sid).bind (fun sd => sd.turnTimeoutId)).toList := by
  cases hl : lookupSession s.sessions sid with
  | none =>
    have hfil : s.timers.filter (fun t => decide (t.2 = sid)) = [] := by
      rw [List.filter_eq_nil_iff]
      intro t ht
      simpa using timers_no_unknown s hwf sid hl t ht
    rw [timersFor, hfil]
    rfl
  | some sd =>
    cases ho : sd.turnTimeoutId with
    | none =>
      have hfil : s.timers.filter (fun t => decide (t.2 = sid)) = [] := by
        rw [List.filter_eq_nil_iff]
        intro t ht hts
        have h := hwf.1 t ht
        rw [(by simpa using hts : t.2 = sid), hl] at h
        simp only [Option.bind_eq_bind, Option.some_bind] at h
        rw [ho] at h
        cases h
      rw [timersFor, hfil]
      simp [ho]
    | some tid =>
      have hmem : (tid, sid) ∈ s.timers.filter (fun t => decide (t.2 = sid)) := by
        apply List.mem_filter.mpr
        exact ⟨hwf.2.1 (sid, sd) (lookup_mem _ _ _ hl) tid (by simp [ho]), by simp⟩
      have hall : ∀ x ∈ s.timers.filter (fun t => decide (t.2 = sid)), x = (tid, sid) := by
        intro x hx
        have hxm := (List.mem_filter.mp hx).1
        have hxs : x.2 = sid := by simpa using (List.mem_filter.mp hx).2
        have h := hwf.1 x hxm
        rw [hxs, hl] at h
        simp only [Option.bind_eq_bind, Option.some_bind] at h
        rw [ho] at h
        have hx1 : x.1 = tid := by
          cases h
          rfl
        calc x = (x.1, x.2) := rfl
          _ = (tid, sid) := by rw [hx1, hxs]
      have hnd : ((s.timers.filter (fun t => decide (t.2 = sid))).map (fun t => t.1)).Nodup :=
        ((List.filter_sublist s.timers).map (fun t => t.1)).nodup hwf.2.2.1
      rw [timersFor, filter_pair_singleton _ (tid, sid) hmem hall hnd]
      simp [ho]

/-- Sequence of dice-roll events for one player and chat, folded through
the dice handler. -/
def applyRolls (s : HelperState) (u c : String) (vs : List Int) : HelperState :=
  vs.foldl (fun st v => processDiceRoll st u c v) s

theorem applyRolls_wf : ∀ (vs : List Int) (s : HelperState) (u c : String),
    timersWF s → ArmedInv s →
    timersWF (applyRolls s u c vs) ∧ ArmedInv (applyRolls s u c vs)
  | [], _, _, _, hwf, harm => ⟨hwf, harm⟩
  | v :: vs, s, u, c, hwf, harm =>
    applyRolls_wf vs (processDiceRoll s u c v) u c
      (timersWF_roll s u c v hwf) (armed_roll s u c v hwf harm)

/-- C8: starting from a well-formed state in which every active session
has an armed timer, after any number of roll events at most one timer is
pending per session, a session still active after the rolls has exactly
one pending timer, and finalizing any session leaves it with no pending
timer (every transition to a terminal state cancels the timer). -/
theorem timer_single_outstanding (s : HelperState) (u c : String) (vs : List Int)
    (hwf : timersWF s) (harmed : ArmedInv s) :
    (∀ sid, (timersFor (applyRolls s u c vs) sid).length ≤ 1) ∧
    (∀ sid sd, lookupSession (applyRolls s u c vs).sessions sid = some sd →
      sd.status = SessionStatus.active_by_helper →
      (timersFor (applyRolls s u c vs) sid).length = 1) ∧
    (∀ (sid : Nat) (st : SessionStatus) (sc : Int) (rolls : List Int) (notes : String),
      timersFor (finalizeJackpotSession (applyRolls s u c vs) sid st sc rolls notes).1 sid
        = []) := by
  obtain ⟨hwf2, harm2⟩ := applyRolls_wf vs s u c hwf harmed
  refine ⟨?_, ?_, ?_⟩
  · intro sid
    rw [timersFor_char _ hwf2 sid]
    cases (lookupSession (applyRolls s u c vs).sessions sid).bind
        (fun sd => sd.turnTimeoutId) <;> simp
  · intro sid sd hl hst
    have hsome : sd.turnTimeoutId.isSome := harm2 (sid, sd) (lookup_mem _ _ _ hl) hst
    obtain ⟨tid, htid⟩ := Option.isSome_iff_exists.mp hsome
    rw [timersFor_char _ hwf2 sid, hl]
    simp [htid]
  · intro sid st sc rolls notes
    exact timersFor_finalize _ sid st sc rolls notes hwf2

/-- Witness record with an armed timer. -/
def sdWT : SessionData := { sdW with turnTimeoutId := some 5 }

/-- Witness state whose single active session has timer 5 armed. -/
def stateWT : HelperState :=
  { stateW with sessions := [(1, sdWT)], timers := [(5, 1)], nextTimerId := 6 }

theorem timer_single_outstanding_witness :
    timersWF stateWT ∧ ArmedInv stateWT ∧
    ((∀ sid, (timersFor (applyRolls stateWT "u1" "c1" [2, 3]) sid).length ≤ 1) ∧
      (∀ sid sd, lookupSession (applyRolls stateWT "u1" "c1" [2, 3]).sessions sid = some sd →
        sd.status = SessionStatus.active_by_helper →
        (timersFor (applyRolls stateWT "u1" "c1" [2, 3]) sid).length = 1) ∧
      (∀ (sid : Nat) (st : SessionStatus) (sc : Int) (rolls : List Int) (notes : String),
        timersFor (finalizeJackpotSession (applyRolls stateWT "u1" "c1" [2, 3])
          sid st sc rolls notes).1 sid = [])) :=
  ⟨by unfold timersWF; decide, by unfold ArmedInv; decide,
   timer_single_outstanding stateWT "u1" "c1" [2, 3]
     (by unfold timersWF; decide) (by unfold ArmedInv; decide)⟩

/-- Outcome of the store interaction of one claim attempt of the per-tick
loop (jackpot_index.js lines 89-140), supplied by the environment: the
SELECT finds no pending row, the SELECT plus conditional UPDATE claim a
row (returned by RETURNING *), the conditional UPDATE affects zero rows
because a competing instance won the race, or the store raises an error
(caught, rolled back and logged inside the attempt). -/
inductive AttemptOutcome where
  | noRows
  | claimed (row : DBRow)
  | raceLost
  | dbError
deriving DecidableEq, Repr

/-- How the per-tick claim loop of checkAndInitiateJackpotSessions ends. -/
inductive LoopExit where
  | normal
  | refError
deriving DecidableEq, Repr

/-- Per-tick claim loop of checkAndInitiateJackpotSessions
(jackpot_index.js lines 79-170), with the store interaction of each
attempt abstracted by the environment list; the row-level semantics of
the conditional update itself is claimUpdate.  Control flow follows the
source: a claimed session is registered and the opening prompt is sent
(line 156); finding no rows breaks out of the loop inside the try block
(line 107); when the attempt ends with claimedSessionData still null
(race lost at line 128, or dbError caught at line 130), execution reaches
the test at line 164, which reads selectRes — a const declared inside the
try block at line 94 and therefore not in scope at line 164 — so the
iteration throws a ReferenceError that escapes the loop and rejects the
whole tick.  Returns the final state, the number of iterations run, and
how the loop exited. -/
def claimLoop (s : HelperState) : Nat → List AttemptOutcome → HelperState × Nat × LoopExit
  | 0, _ => (s, 0, LoopExit.normal)
  | _ + 1, [] => (s, 0, LoopExit.normal)
  | n + 1, o :: os =>
    match o with
    | AttemptOutcome.noRows => (s, 1, LoopExit.normal)
    | AttemptOutcome.claimed row =>
      let s1 := sendJackpotRunUpdate (registerClaimedSession s row) row.session_id none
      let rest := claimLoop s1 n os
      (rest.1, rest.2.1 + 1, rest.2.2)
    | AttemptOutcome.raceLost => (s, 1, LoopExit.refError)
    | AttemptOutcome.dbError => (s, 1, LoopExit.refError)

/-- Pending row a second claim attempt of the same tick would claim. -/
def rowW9 : DBRow := { rowW with session_id := 2 }

/-- C9 fails on the code: in a tick with capacity for two claim attempts,
when the first attempt loses the race on the conditional update, the loop
does not move on to the next candidate; it throws a ReferenceError (the
line 164 test reads selectRes outside the try block that declares it), so
only one attempt runs, the remaining attempt is aborted and nothing is
claimed or registered in this tick.  The state is returned unchanged, so
other managed sessions are unaffected. -/
theorem claim_loop_aborts_on_contention :
    claimLoop stateW0 2 [AttemptOutcome.raceLost, AttemptOutcome.claimed rowW9] =
      (stateW0, 1, LoopExit.refError) ∧
    claimLoop stateW0 2 [AttemptOutcome.dbError, AttemptOutcome.claimed rowW9] =
      (stateW0, 1, LoopExit.refError) := by
  decide
